import Mathlib

/-!
Verification development for the `rust-nes-emulator-embedded` repository.

Two crates are modelled:

* `NesEmu` — the `nes-emulator` crate's `System` bus arbiter
  (`nes-emulator/src/system.rs`): WRAM with mirroring, open-bus latch,
  address dispatch to PPU / APU / ports / cartridge, the per-CPU-cycle
  stepping primitive and the PPU drift catch-up loop.
* `Legacy` — the `rust_nes_emulator` crate's frame-stepping orchestrator
  (`src/nes.rs`): `Nes::tick_frame`, which lets the PPU catch up to
  `cpu_clock * 3` one dot at a time and then executes one CPU instruction
  step (or consumes a pending OAM-DMA suspension budget).

Bytes are modelled as `Nat` values; every bitwise mask computed by the
source on `u8` is written with an explicit 8-bit complement
(`0xff ^^^ mask`).  Device cores (PPU, APU, cartridge mapper, controller
ports) are not part of the sources, so they are modelled from the spec as
small state machines whose bus-facing values are abstract functions.
-/

namespace NesEmu

/-- Modelled from the spec: a DMC sample-fetch DMA request raised by the
APU (`DmcDmaRequest` in `system.rs` carries the fetch address). -/
structure DmcDmaRequest where
  address : Nat
deriving DecidableEq

/-- The `WatchOps::READ` bit from `system.rs`. -/
def WatchOps.READ : Nat := 0b1

/-- The `WatchOps::WRITE` bit from `system.rs`. -/
def WatchOps.WRITE : Nat := 0b10

/-- The `WatchOps::EXECUTE` bit from `system.rs`. -/
def WatchOps.EXECUTE : Nat := 0b100

/-- The `WatchOps::DUMMY` bit from `system.rs`. -/
def WatchOps.DUMMY : Nat := 0b1000

/-- The `WatchOps::contains`: every bit of `ops` is set in `w`. -/
def WatchOps.contains (w ops : Nat) : Bool := w &&& ops == ops

/-- A watchpoint: address plus operation mask (`WatchPoint` in `system.rs`). -/
structure WatchPoint where
  address : Nat
  ops : Nat
deriving DecidableEq

/-- Per-address I/O counters (`IoStatsRecord` in `system.rs`). -/
structure IoStatsRecord where
  reads : Nat
  writes : Nat
  execute : Nat
deriving DecidableEq

/-- Debug-only state that a snapshot/clone of the system must not capture
(`NoCloneDebugState` in `system.rs`).  The `io_stats` table is modelled as a
function from addresses to counter records. -/
structure NoCloneDebugState where
  watch_points : List WatchPoint
  watch_hit : Bool
  io_stats : Nat → IoStatsRecord

/-- The `Default` impl for `NoCloneDebugState`: empty watch list, no hit, zeroed
counters. -/
def NoCloneDebugState.default : NoCloneDebugState :=
  { watch_points := [], watch_hit := false, io_stats := fun _ => ⟨0, 0, 0⟩ }

/-- The hand-written `Clone` impl for `NoCloneDebugState` in `system.rs`
returns `Self::default()` instead of copying. -/
def NoCloneDebugState.clone (_ : NoCloneDebugState) : NoCloneDebugState :=
  NoCloneDebugState.default

/-- Bump the read counter for one address. -/
def NoCloneDebugState.bumpReads (d : NoCloneDebugState) (addr : Nat) : NoCloneDebugState :=
  { d with io_stats := fun i =>
      if i = addr then
        { d.io_stats addr with reads := (d.io_stats addr).reads + 1 }
      else d.io_stats i }

/-- Bump the write counter for one address. -/
def NoCloneDebugState.bumpWrites (d : NoCloneDebugState) (addr : Nat) : NoCloneDebugState :=
  { d with io_stats := fun i =>
      if i = addr then
        { d.io_stats addr with writes := (d.io_stats addr).writes + 1 }
      else d.io_stats i }

/-- Bump the execute counter for one address. -/
def NoCloneDebugState.bumpExecute (d : NoCloneDebugState) (addr : Nat) : NoCloneDebugState :=
  { d with io_stats := fun i =>
      if i = addr then
        { d.io_stats addr with execute := (d.io_stats addr).execute + 1 }
      else d.io_stats i }

/-- Modelled from the spec: the cartridge/mapper, whose implementation
(`cartridge.rs`) is not part of the sources.  `busValueAt` gives the
`(value, undefined_bits)` pair the cartridge drives for each system-bus
address; `writes` logs system-bus writes delivered to the mapper. -/
structure Cartridge where
  busValueAt : Nat → Nat × Nat
  writes : List (Nat × Nat)

/-- The `Cartridge::system_bus_read`: value plus undefined-bit mask. -/
def Cartridge.system_bus_read (c : Cartridge) (addr : Nat) : (Nat × Nat) × Cartridge :=
  (c.busValueAt addr, c)

/-- The `Cartridge::system_bus_peek`: same value as a read, no side effects. -/
def Cartridge.system_bus_peek (c : Cartridge) (addr : Nat) : Nat × Nat :=
  c.busValueAt addr

/-- The `Cartridge::system_bus_write`: deliver a write to the mapper. -/
def Cartridge.system_bus_write (c : Cartridge) (addr data : Nat) : Cartridge :=
  { c with writes := (addr, data) :: c.writes }

/-- Modelled from the spec: a controller port (`port.rs` is not part of the
sources).  `out` is the byte currently presented by the shift register,
`reg` the last strobe/register write, `readCount` counts shift-register
reads (reads have side effects on real hardware). -/
structure Port where
  out : Nat
  reg : Nat
  readCount : Nat

/-- The `Port::read`: present the shift-register byte (side-effecting). -/
def Port.read (p : Port) : Nat × Port :=
  (p.out, { p with readCount := p.readCount + 1 })

/-- The `Port::peek`: same byte without side effects. -/
def Port.peek (p : Port) : Nat := p.out

/-- The `Port::write_register`: latch a strobe/register write. -/
def Port.write_register (p : Port) (data : Nat) : Port :=
  { p with reg := data }

/-- Power-on controller port. -/
def Port.new : Port := ⟨0, 0, 0⟩

/-- Modelled from the spec: the APU (`apu.rs` is not part of the sources).
It advances 1:1 with CPU cycles (`clock`), may raise a DMC DMA fetch
request when stepped (`dmcRequestAt`, a function of the APU clock),
drives `(value, undefined_bits)` for register reads (`regValueAt`) and
logs register writes. -/
structure Apu where
  clock : Nat
  dmcRequestAt : Nat → Option Nat
  regValueAt : Nat → Nat × Nat
  writes : List (Nat × Nat)
  readCount : Nat

/-- The `Apu::step`: advance one CPU cycle, possibly raising a DMC DMA request. -/
def Apu.step (a : Apu) : Apu × Option DmcDmaRequest :=
  ({ a with clock := a.clock + 1 }, (a.dmcRequestAt a.clock).map DmcDmaRequest.mk)

/-- The `Apu::read`: register value plus undefined-bit mask (side-effecting). -/
def Apu.read (a : Apu) (addr : Nat) : (Nat × Nat) × Apu :=
  (a.regValueAt addr, { a with readCount := a.readCount + 1 })

/-- The `Apu::peek`: same value and mask as a read, no side effects. -/
def Apu.peek (a : Apu) (addr : Nat) : Nat × Nat :=
  a.regValueAt addr

/-- The `Apu::write`: deliver a register write. -/
def Apu.write (a : Apu) (addr data : Nat) : Apu :=
  { a with writes := (addr, data) :: a.writes }

/-- The `Apu::new`: power-on APU, clock zero, no DMA pending. -/
def Apu.new (dmc : Nat → Option Nat) (rv : Nat → Nat × Nat) : Apu :=
  ⟨0, dmc, rv, [], 0⟩

/-- Modelled from the spec: the PPU (`ppu.rs` is not part of the sources).
`clock` counts dots, `dot`/`line` are the position counters, `regValueAt`
abstracts the byte driven for a register read (the PPU applies its own
open-bus rules internally, which is why `System::read` treats PPU reads as
having no undefined bits), `regWrites` logs register writes, and
`breakpoints` is the configured set of `(line, dot)` debug breakpoints. -/
structure Ppu where
  clock : Nat
  dot : Nat
  line : Nat
  nmi_interrupt_raised : Bool
  regValueAt : Nat → Nat
  regWrites : List (Nat × Nat)
  readCount : Nat
  breakpoints : List (Nat × Nat)

/-- Whether the PPU sits on a configured `(line, dot)` breakpoint. -/
def Ppu.hitsBreakpoint (p : Ppu) : Bool :=
  decide ((p.line, p.dot) ∈ p.breakpoints)

/-- Advance the PPU by one dot (NTSC: 341 dots per line, 262 lines). -/
def Ppu.advance (p : Ppu) : Ppu :=
  { p with
    clock := p.clock + 1,
    dot := if p.dot = 340 then 0 else p.dot + 1,
    line := if p.dot = 340 then (if p.line = 261 then 0 else p.line + 1) else p.line }

/-- The `Ppu::step`: advance one dot, or return `false` without advancing when a
configured breakpoint is hit. -/
def Ppu.step (p : Ppu) (c : Cartridge) : Ppu × Cartridge × Bool :=
  if p.hitsBreakpoint then (p, c, false) else (p.advance, c, true)

/-- Holds (`true`) exactly when `count` successive `Ppu::step` calls all advance
without hitting a breakpoint. -/
def Ppu.cleanSteps : Ppu → Nat → Bool
  | _, 0 => true
  | p, count + 1 => !p.hitsBreakpoint && p.advance.cleanSteps count

/-- The `Ppu::system_bus_read`: register read, mirrored every 8 bytes
(side-effecting on real hardware, modelled by bumping `readCount`). -/
def Ppu.system_bus_read (p : Ppu) (c : Cartridge) (addr : Nat) : Nat × Ppu × Cartridge :=
  (p.regValueAt (addr % 8), { p with readCount := p.readCount + 1 }, c)

/-- The `Ppu::system_bus_peek`: same register value without side effects. -/
def Ppu.system_bus_peek (p : Ppu) (_c : Cartridge) (addr : Nat) : Nat :=
  p.regValueAt (addr % 8)

/-- The `Ppu::system_bus_write`: register write, mirrored every 8 bytes. -/
def Ppu.system_bus_write (p : Ppu) (c : Cartridge) (addr data : Nat) : Ppu × Cartridge :=
  ({ p with regWrites := (addr % 8, data) :: p.regWrites }, c)

/-- Power-on PPU: clocks and counters zero, no breakpoints configured. -/
def Ppu.new (rv : Nat → Nat) : Ppu :=
  ⟨0, 0, 0, false, rv, [], 0, []⟩

/-- The `WRAM_SIZE` from `system.rs`. -/
def WRAM_SIZE : Nat := 0x0800

/-- The `System` bus arbiter of `nes-emulator/src/system.rs`: PPU, APU,
pending DMC DMA request, open-bus latch, 2KB WRAM (modelled as a function
from indices below `WRAM_SIZE` to bytes), cartridge, the two controller
ports and the non-cloned debug state. -/
structure System where
  ppu : Ppu
  apu : Apu
  dmc_dma_request : Option DmcDmaRequest
  open_bus_value : Nat
  wram : Nat → Nat
  cartridge : Cartridge
  port1 : Port
  port2 : Port
  debug : NoCloneDebugState

/-- The `System::new`: freshly constructed system — zeroed WRAM, open-bus latch
zero, no DMA pending, power-on devices, default debug state.  The abstract
device behaviour functions stand in for the device cores built by
`Ppu::new` / `Apu::new`. -/
def System.new (ppuRegs : Nat → Nat) (dmc : Nat → Option Nat)
    (apuRegs : Nat → Nat × Nat) (cartridge : Cartridge) : System :=
  { ppu := Ppu.new ppuRegs
    apu := Apu.new dmc apuRegs
    dmc_dma_request := none
    open_bus_value := 0
    wram := fun _ => 0
    cartridge := cartridge
    port1 := Port.new
    port2 := Port.new
    debug := NoCloneDebugState.default }

/-- The `System::apply_open_bus_bits_mut`: mask the undriven bits, fill them
from the latch, and store the result back into the latch. -/
def System.apply_open_bus_bits_mut (s : System) (value undefined_bits : Nat) :
    Nat × System :=
  let v := (value &&& (0xff ^^^ undefined_bits)) ||| (s.open_bus_value &&& undefined_bits)
  (v, { s with open_bus_value := v })

/-- The `System::apply_open_bus_bits`: the same masking without updating the
latch (used by `peek`). -/
def System.apply_open_bus_bits (s : System) (value undefined_bits : Nat) : Nat :=
  (value &&& (0xff ^^^ undefined_bits)) ||| (s.open_bus_value &&& undefined_bits)

/-- The `System::check_watch_points`: set the sticky `watch_hit` flag when some
watchpoint matches the address and operation mask. -/
def System.check_watch_points (s : System) (addr ops : Nat) : System :=
  let hit := s.debug.watch_points.any
    fun w => w.address == addr && WatchOps.contains w.ops ops
  { s with debug := if hit then { s.debug with watch_hit := true } else s.debug }

/-- The address-decode `match` of `System::read`: the `(value,
undefined_bits)` pair produced by the addressed device, together with the
device side effects.  WRAM is mirrored modulo `0x800`; register index
`0x14` (OAMDMA) is write-only and returns all bits undefined; `0x16`/`0x17`
read the controller ports with the top three bits undefined; other
`0x40xx` indices go to the APU; everything from `0x4020` up goes to the
cartridge. -/
def System.busRead (s : System) (addr : Nat) : (Nat × Nat) × System :=
  if addr ≤ 0x1fff then
    ((s.wram (addr % WRAM_SIZE), 0), s)
  else if addr ≤ 0x3fff then
    let r := s.ppu.system_bus_read s.cartridge addr
    ((r.1, 0), { s with ppu := r.2.1, cartridge := r.2.2 })
  else if addr ≤ 0x401f then
    let index := addr - 0x4000
    if index = 0x14 then
      ((0, 0xff), s)
    else if index = 0x16 then
      let r := s.port1.read
      ((r.1, 0b11100000), { s with port1 := r.2 })
    else if index = 0x17 then
      let r := s.port2.read
      ((r.1, 0b11100000), { s with port2 := r.2 })
    else
      let r := s.apu.read addr
      (r.1, { s with apu := r.2 })
  else
    let r := s.cartridge.system_bus_read addr
    (r.1, { s with cartridge := r.2 })

/-- The `System::step_ppu`: single-step the PPU; `false` when a PPU breakpoint
was hit (in which case the PPU did not advance). -/
def System.step_ppu (s : System) : System × Bool :=
  let r := s.ppu.step s.cartridge
  ({ s with ppu := r.1, cartridge := r.2.1 }, r.2.2)

/-- The `for _ in 0..k { if !self.step_ppu() { break } }` loops of
`step_for_cpu_cycle` and `catch_up_ppu_drift`: step the PPU up to `k`
times, stopping early (returning `false`) on a breakpoint. -/
def System.stepPpuN : System → Nat → System × Bool
  | s, 0 => (s, true)
  | s, k + 1 =>
    let r := s.step_ppu
    if r.2 then r.1.stepPpuN k else (r.1, false)

/-- The `debug_assert!(self.dmc_dma_request.is_none())` at the top of
`System::step_for_cpu_cycle`: the assertion passes exactly when no DMC DMA
request is pending. -/
def System.stepAssertOk (s : System) : Bool :=
  s.dmc_dma_request.isNone

/-- The `System::step_for_cpu_cycle`: step the APU once (storing any DMC DMA
request it raises) and the PPU three times, stopping the PPU early on a
breakpoint.  Release-build semantics: the `debug_assert` does not alter the
state (see `System.stepAssertOk`). -/
def System.step_for_cpu_cycle (s : System) : System :=
  let r := s.apu.step
  let s1 := { s with apu := r.1, dmc_dma_request := r.2 }
  (s1.stepPpuN 3).1

/-- The `System::read`: decode and dispatch the address, step the whole system
for one CPU cycle, then apply and update the open-bus latch. -/
def System.read (s : System) (addr : Nat) : Nat × System :=
  let r := s.busRead addr
  let s2 := r.2.step_for_cpu_cycle
  s2.apply_open_bus_bits_mut r.1.1 r.1.2

/-- The `System::cpu_read`: watchpoint check, I/O-stats bump, then `read`. -/
def System.cpu_read (s : System) (addr : Nat) : Nat × System :=
  let s1 := s.check_watch_points addr WatchOps.READ
  let s2 := { s1 with debug := s1.debug.bumpReads addr }
  s2.read addr

/-- The `System::dummy_cpu_read`: a superfluous CPU read; the value is
discarded but every side effect (including the open-bus latch update)
still happens. -/
def System.dummy_cpu_read (s : System) (addr : Nat) : System :=
  let s1 := s.check_watch_points addr (WatchOps.DUMMY ||| WatchOps.READ)
  let s2 := { s1 with debug := s1.debug.bumpReads addr }
  (s2.read addr).2

/-- The `System::cpu_fetch`: an instruction-fetch read. -/
def System.cpu_fetch (s : System) (addr : Nat) : Nat × System :=
  let s1 := s.check_watch_points addr WatchOps.EXECUTE
  let s2 := { s1 with debug := s1.debug.bumpExecute addr }
  s2.read addr

/-- The `System::peek`: the same address decode and open-bus masking as `read`,
built from the devices' side-effect-free peeks, without stepping anything
and without updating the latch. -/
def System.peek (s : System) (addr : Nat) : Nat :=
  let vu : Nat × Nat :=
    if addr ≤ 0x1fff then
      (s.wram (addr % WRAM_SIZE), 0)
    else if addr ≤ 0x3fff then
      (s.ppu.system_bus_peek s.cartridge addr, 0)
    else if addr ≤ 0x401f then
      let index := addr - 0x4000
      if index = 0x14 then (0, 0xff)
      else if index = 0x16 then (s.port1.peek, 0b11100000)
      else if index = 0x17 then (s.port2.peek, 0b11100000)
      else s.apu.peek addr
    else
      s.cartridge.system_bus_peek addr
  s.apply_open_bus_bits vu.1 vu.2

/-- The address-decode `match` of `System::write`: WRAM mirrors modulo
`0x800`; PPU registers; index `0x14` (OAMDMA) is handled inside the CPU so
nothing happens here; index `0x16` is split between both controller ports
and the APU; index `0x17` goes to the APU only; the rest to the
cartridge. -/
def System.busWrite (s : System) (addr data : Nat) : System :=
  if addr ≤ 0x1fff then
    { s with wram := fun i => if i = addr % WRAM_SIZE then data else s.wram i }
  else if addr ≤ 0x3fff then
    let r := s.ppu.system_bus_write s.cartridge addr data
    { s with ppu := r.1, cartridge := r.2 }
  else if addr ≤ 0x401f then
    let index := addr - 0x4000
    if index = 0x14 then
      s
    else if index = 0x16 then
      let s1 := { s with port1 := s.port1.write_register data,
                         port2 := s.port2.write_register data }
      { s1 with apu := s1.apu.write addr data }
    else if index = 0x17 then
      { s with apu := s.apu.write addr data }
    else
      { s with apu := s.apu.write addr data }
  else
    { s with cartridge := s.cartridge.system_bus_write addr data }

/-- The `System::write`: dispatch the write, then step the whole system for one
CPU cycle.  Note: unlike `read`, `write` never touches the open-bus
latch. -/
def System.write (s : System) (addr data : Nat) : System :=
  (s.busWrite addr data).step_for_cpu_cycle

/-- The `System::cpu_write`: watchpoint check, I/O-stats bump, then `write`. -/
def System.cpu_write (s : System) (addr data : Nat) : System :=
  let s1 := s.check_watch_points addr WatchOps.WRITE
  let s2 := { s1 with debug := s1.debug.bumpWrites addr }
  s2.write addr data

/-- The `System::dummy_cpu_write`: a superfluous CPU write. -/
def System.dummy_cpu_write (s : System) (addr data : Nat) : System :=
  let s1 := s.check_watch_points addr (WatchOps.DUMMY ||| WatchOps.WRITE)
  let s2 := { s1 with debug := s1.debug.bumpWrites addr }
  s2.write addr data

/-- The `System::catch_up_ppu_drift`: step the PPU `expected_ppu_clock -
ppu.clock` times (a `u64` subtraction in the source), aborting with
`false` on a PPU breakpoint. -/
def System.catch_up_ppu_drift (s : System) (expected_ppu_clock : Nat) : System × Bool :=
  let ppu_delta := expected_ppu_clock - s.ppu.clock
  s.stepPpuN ppu_delta

/-- The derived `Clone` for `System`: every field is cloned as-is except
`debug`, whose hand-written `Clone` impl resets it to `default`. -/
def System.clone (s : System) : System :=
  { ppu := s.ppu
    apu := s.apu
    dmc_dma_request := s.dmc_dma_request
    open_bus_value := s.open_bus_value
    wram := s.wram
    cartridge := s.cartridge
    port1 := s.port1
    port2 := s.port2
    debug := s.debug.clone }

/-- Iterates `System::step_for_cpu_cycle` for `count` successive calls. -/
def System.stepN : System → Nat → System
  | s, 0 => s
  | s, count + 1 => (s.step_for_cpu_cycle).stepN count

end NesEmu

/-- An all-zero cartridge driving no undefined bits anywhere: every address
reads as `(0, 0)`. -/
def cart0 : NesEmu.Cartridge :=
  { busValueAt := fun _ => (0, 0), writes := [] }

/-- A freshly constructed system over `cart0` with all abstract device
values zero. -/
def sys0 : NesEmu.System :=
  NesEmu.System.new (fun _ => 0) (fun _ => none) (fun _ => (0, 0)) cart0

/-- A freshly constructed system whose PPU drives `1` for every register
read (distinguishable from zeroed WRAM). -/
def sysP : NesEmu.System :=
  NesEmu.System.new (fun _ => 1) (fun _ => none) (fun _ => (0, 0)) cart0

namespace Legacy

/-- The `PpuStatus` of the frame-stepping crate: the event reported by stepping
the PPU one dot. -/
inductive PpuStatus where
  | none
  | finishedFrame
  | raiseNmi
deriving DecidableEq

/-- Modelled from the spec: the frame-stepping crate's `System`
(`src/system.rs` is not part of the sources).  `ppuStatusAt` abstracts the
`PpuStatus` returned by `System::step_ppu` when the orchestrator-held
`ppu_clock` has the given value; `oam_dma_cpu_suspend_cycles` is the OAM-DMA
CPU suspension budget read and cleared by `Nes::tick_frame`. -/
structure System where
  ppuStatusAt : Nat → PpuStatus
  oam_dma_cpu_suspend_cycles : Nat

/-- The `System::step_ppu` of the frame-stepping crate: advance the PPU one dot
(its internal raster state is abstracted away) and report the dot's status. -/
def System.step_ppu (s : System) (ppu_clock : Nat) : System × PpuStatus :=
  (s, s.ppuStatusAt ppu_clock)

/-- Modelled from the spec: the CPU instruction engine (`src/cpu.rs` is not
part of the sources).  `cyclesAt k` is the cycle count the `k`-th
instruction step reports; `suspendSetAt k` is the OAM-DMA suspension budget
that step installs (if any, via a `0x4014` write); `steps` counts executed
instruction steps; `nmiLog` records, in order, the `ppu_clock` value of
every dot whose `RaiseNmi` was delivered through `Cpu::interrupt`. -/
structure Cpu where
  cyclesAt : Nat → Nat
  suspendSetAt : Nat → Option Nat
  steps : Nat
  nmiLog : List Nat

/-- The `Cpu::interrupt(system, Interrupt::NMI)`: deliver an NMI; the delivery
is logged together with the dot that raised it. -/
def Cpu.interruptNmi (cpu : Cpu) (ppu_clock : Nat) : Cpu :=
  { cpu with nmiLog := cpu.nmiLog ++ [ppu_clock] }

/-- The `Cpu::step`: execute one instruction, returning the cycles consumed and
possibly installing an OAM-DMA suspension budget in the system. -/
def Cpu.step (cpu : Cpu) (sys : System) : Cpu × System × Nat :=
  ({ cpu with steps := cpu.steps + 1 },
   { sys with oam_dma_cpu_suspend_cycles :=
       (cpu.suspendSetAt cpu.steps).getD sys.oam_dma_cpu_suspend_cycles },
   cpu.cyclesAt cpu.steps)

/-- The orchestrator state of `src/nes.rs` (framebuffer plumbing and pixel
format omitted): CPU, system, and the master CPU / PPU clocks. -/
structure Nes where
  cpu : Cpu
  system : System
  cpu_clock : Nat
  ppu_clock : Nat

/-- The `Nes::new`: both clocks start at zero. -/
def Nes.new (cpu : Cpu) (system : System) : Nes :=
  { cpu := cpu, system := system, cpu_clock := 0, ppu_clock := 0 }

/-- The inner `for _ in 0..ppu_delta` loop of `Nes::tick_frame`: step the
PPU one dot at a time, incrementing `ppu_clock` after each dot, handling
the dot's status — `None` continues, `FinishedFrame` exits the frame loop
(second component `true`), `RaiseNmi` delivers an NMI to the CPU
immediately and continues. -/
def ppuCatchUp : Nes → Nat → Nes × Bool
  | n, 0 => (n, false)
  | n, delta + 1 =>
    let r := n.system.step_ppu n.ppu_clock
    let n1 := { n with system := r.1, ppu_clock := n.ppu_clock + 1 }
    match r.2 with
    | .none => ppuCatchUp n1 delta
    | .finishedFrame => (n1, true)
    | .raiseNmi => ppuCatchUp { n1 with cpu := n1.cpu.interruptNmi n.ppu_clock } delta

/-- One iteration of the `'frame_loop` in `Nes::tick_frame`: catch the PPU
up to `expected_ppu_clock = cpu_clock * 3` (the `u64` subtraction computing
`ppu_delta` is modelled by truncated `Nat` subtraction); if the frame
finished, exit (`true`); otherwise either execute one CPU instruction step
and add its cycles to `cpu_clock`, or — when an OAM-DMA suspension is
pending — add the suspension budget to `cpu_clock` and clear it. -/
def tickFrameIter (n : Nes) : Nes × Bool :=
  let expected_ppu_clock := n.cpu_clock * 3
  let ppu_delta := expected_ppu_clock - n.ppu_clock
  let r := ppuCatchUp n ppu_delta
  let n1 := r.1
  if r.2 then (n1, true)
  else if n1.system.oam_dma_cpu_suspend_cycles = 0 then
    let c := n1.cpu.step n1.system
    ({ n1 with cpu := c.1, system := c.2.1, cpu_clock := n1.cpu_clock + c.2.2 }, false)
  else
    ({ n1 with cpu_clock := n1.cpu_clock + n1.system.oam_dma_cpu_suspend_cycles,
               system := { n1.system with oam_dma_cpu_suspend_cycles := 0 } }, false)

/-- The `Nes::tick_frame`, fuelled: run frame-loop iterations until the frame
finishes or the fuel runs out. -/
def tickFrame : Nat → Nes → Nes
  | 0, n => n
  | fuel + 1, n =>
    let (n1, finished) := tickFrameIter n
    if finished then n1 else tickFrame fuel n1

/-- The orchestrator state at the head of the `k`-th frame-loop iteration
(iteration state transformer iterated `k` times). -/
def tickFrameHead : Nat → Nes → Nes
  | 0, n => n
  | k + 1, n => tickFrameHead k (tickFrameIter n).1

/-- The dots in `[p, p + delta)` whose status is `RaiseNmi`, in order:
the NMIs the catch-up loop must deliver. -/
def raisesIn (sys : System) : Nat → Nat → List Nat
  | _, 0 => []
  | p, delta + 1 =>
    if sys.ppuStatusAt p = PpuStatus.raiseNmi then p :: raisesIn sys (p + 1) delta
    else raisesIn sys (p + 1) delta

end Legacy

/-- A concrete frame-stepping system: dot 0 raises an NMI, all other dots
are uneventful; no OAM-DMA suspension pending. -/
def legacySys0 : Legacy.System :=
  { ppuStatusAt := fun c => if c = 0 then .raiseNmi else .none
    oam_dma_cpu_suspend_cycles := 0 }

/-- A concrete CPU: every instruction step takes 2 cycles and never starts
an OAM DMA. -/
def legacyCpu0 : Legacy.Cpu :=
  { cyclesAt := fun _ => 2, suspendSetAt := fun _ => none, steps := 0, nmiLog := [] }

/-- A concrete orchestrator state: one CPU cycle elapsed, PPU not yet
caught up. -/
def nes0 : Legacy.Nes :=
  { cpu := legacyCpu0, system := legacySys0, cpu_clock := 1, ppu_clock := 0 }

namespace NesEmu

/-- Fields of the system that a bare PPU step never touches. -/
theorem step_ppu_frame (s : System) :
    (s.step_ppu).1.apu = s.apu ∧
    (s.step_ppu).1.dmc_dma_request = s.dmc_dma_request ∧
    (s.step_ppu).1.open_bus_value = s.open_bus_value ∧
    (s.step_ppu).1.wram = s.wram ∧
    (s.step_ppu).1.port1 = s.port1 ∧
    (s.step_ppu).1.port2 = s.port2 ∧
    (s.step_ppu).1.debug = s.debug ∧
    (s.step_ppu).1.cartridge = s.cartridge ∧
    (s.step_ppu).1.ppu.breakpoints = s.ppu.breakpoints ∧
    (s.step_ppu).1.ppu.regValueAt = s.ppu.regValueAt := by
  simp only [System.step_ppu, Ppu.step]
  split <;> simp [Ppu.advance]

/-- Fields of the system that the bounded PPU-stepping loop never touches. -/
theorem stepPpuN_frame (k : Nat) : ∀ s : System,
    (s.stepPpuN k).1.apu = s.apu ∧
    (s.stepPpuN k).1.dmc_dma_request = s.dmc_dma_request ∧
    (s.stepPpuN k).1.open_bus_value = s.open_bus_value ∧
    (s.stepPpuN k).1.wram = s.wram ∧
    (s.stepPpuN k).1.port1 = s.port1 ∧
    (s.stepPpuN k).1.port2 = s.port2 ∧
    (s.stepPpuN k).1.debug = s.debug ∧
    (s.stepPpuN k).1.cartridge = s.cartridge ∧
    (s.stepPpuN k).1.ppu.breakpoints = s.ppu.breakpoints ∧
    (s.stepPpuN k).1.ppu.regValueAt = s.ppu.regValueAt := by
  induction k with
  | zero => intro s; simp [System.stepPpuN]
  | succ k ih =>
    intro s
    have h1 := step_ppu_frame s
    have h2 := ih (s.step_ppu).1
    simp only [System.stepPpuN]
    by_cases hb : (s.step_ppu).2
    · simp only [hb, if_true]
      exact ⟨h2.1.trans h1.1, h2.2.1.trans h1.2.1, h2.2.2.1.trans h1.2.2.1,
             h2.2.2.2.1.trans h1.2.2.2.1, h2.2.2.2.2.1.trans h1.2.2.2.2.1,
             h2.2.2.2.2.2.1.trans h1.2.2.2.2.2.1, h2.2.2.2.2.2.2.1.trans h1.2.2.2.2.2.2.1,
             h2.2.2.2.2.2.2.2.1.trans h1.2.2.2.2.2.2.2.1,
             h2.2.2.2.2.2.2.2.2.1.trans h1.2.2.2.2.2.2.2.2.1,
             h2.2.2.2.2.2.2.2.2.2.trans h1.2.2.2.2.2.2.2.2.2⟩
    · simp only [hb, if_false]
      exact h1

/-- What one full CPU-cycle step does to the APU and the DMA request slot:
the APU is exactly the stepped APU, and the pending request slot holds
exactly what `Apu::step` returned. -/
theorem step_for_cpu_cycle_apu (s : System) :
    (s.step_for_cpu_cycle).apu = (s.apu.step).1 ∧
    (s.step_for_cpu_cycle).dmc_dma_request = (s.apu.step).2 := by
  have h := stepPpuN_frame 3 { s with apu := (s.apu.step).1, dmc_dma_request := (s.apu.step).2 }
  exact ⟨h.1, h.2.1⟩

/-- Fields of the system that a full CPU-cycle step never touches. -/
theorem step_for_cpu_cycle_frame (s : System) :
    (s.step_for_cpu_cycle).open_bus_value = s.open_bus_value ∧
    (s.step_for_cpu_cycle).wram = s.wram ∧
    (s.step_for_cpu_cycle).port1 = s.port1 ∧
    (s.step_for_cpu_cycle).port2 = s.port2 ∧
    (s.step_for_cpu_cycle).debug = s.debug ∧
    (s.step_for_cpu_cycle).cartridge = s.cartridge ∧
    (s.step_for_cpu_cycle).ppu.breakpoints = s.ppu.breakpoints := by
  have h := stepPpuN_frame 3 { s with apu := (s.apu.step).1, dmc_dma_request := (s.apu.step).2 }
  exact ⟨h.2.2.1, h.2.2.2.1, h.2.2.2.2.1, h.2.2.2.2.2.1, h.2.2.2.2.2.2.1,
         h.2.2.2.2.2.2.2.1, h.2.2.2.2.2.2.2.2.1⟩

end NesEmu

namespace NesEmu

/-- A PPU with no configured breakpoints steps cleanly for any count. -/
theorem cleanSteps_of_no_breakpoints (k : Nat) : ∀ p : Ppu,
    p.breakpoints = [] → p.cleanSteps k = true := by
  induction k with
  | zero => intro p _; rfl
  | succ k ih =>
    intro p h
    have hb : p.hitsBreakpoint = false := by
      simp [Ppu.hitsBreakpoint, h]
    have h2 : p.advance.breakpoints = [] := h
    simp [Ppu.cleanSteps, hb, ih p.advance h2]

/-- Clean stepping: when no breakpoint is hit during `k` PPU steps, the
loop completes and the PPU clock advances by exactly `k`. -/
theorem stepPpuN_clean (k : Nat) : ∀ s : System, s.ppu.cleanSteps k = true →
    (s.stepPpuN k).2 = true ∧
    (s.stepPpuN k).1.ppu.clock = s.ppu.clock + k ∧
    (s.stepPpuN k).1.ppu.breakpoints = s.ppu.breakpoints := by
  induction k with
  | zero => intro s _; exact ⟨rfl, rfl, rfl⟩
  | succ k ih =>
    intro s h
    simp only [Ppu.cleanSteps, Bool.and_eq_true, Bool.not_eq_true'] at h
    obtain ⟨hb, hc⟩ := h
    have hstep : s.step_ppu = ({ s with ppu := s.ppu.advance }, true) := by
      simp [System.step_ppu, Ppu.step, hb]
    have ih2 := ih { s with ppu := s.ppu.advance } hc
    simp only [System.stepPpuN, hstep, if_true]
    refine ⟨ih2.1, ?_, ih2.2.2⟩
    have : ({ s with ppu := s.ppu.advance } : System).ppu.clock = s.ppu.clock + 1 := rfl
    omega

/-- One full CPU-cycle step, when the three PPU dots are breakpoint-free,
advances the PPU clock by exactly 3 and the APU clock by exactly 1. -/
theorem step_for_cpu_cycle_clean (s : System) (h : s.ppu.cleanSteps 3 = true) :
    (s.step_for_cpu_cycle).ppu.clock = s.ppu.clock + 3 ∧
    (s.step_for_cpu_cycle).apu.clock = s.apu.clock + 1 ∧
    (s.step_for_cpu_cycle).ppu.breakpoints = s.ppu.breakpoints := by
  have h1 := stepPpuN_clean 3 { s with apu := (s.apu.step).1, dmc_dma_request := (s.apu.step).2 } h
  have h2 := step_for_cpu_cycle_apu s
  exact ⟨h1.2.1, by rw [h2.1]; rfl, h1.2.2⟩

/-- Repeated CPU-cycle stepping with no breakpoints configured: clocks
advance in the exact 3:1 ratio. -/
theorem stepN_clocks (N : Nat) : ∀ s : System, s.ppu.breakpoints = [] →
    (s.stepN N).ppu.clock = s.ppu.clock + 3 * N ∧
    (s.stepN N).apu.clock = s.apu.clock + N ∧
    (s.stepN N).ppu.breakpoints = [] := by
  induction N with
  | zero => intro s h; exact ⟨by simp [System.stepN], by simp [System.stepN], by simpa [System.stepN] using h⟩
  | succ N ih =>
    intro s h
    have hc := step_for_cpu_cycle_clean s (cleanSteps_of_no_breakpoints 3 s.ppu h)
    have hb : (s.step_for_cpu_cycle).ppu.breakpoints = [] := hc.2.2.trans h
    have ihs := ih s.step_for_cpu_cycle hb
    simp only [System.stepN]
    refine ⟨?_, ?_, ihs.2.2⟩
    · rw [ihs.1, hc.1]; ring
    · rw [ihs.2.1, hc.2.1]; ring

end NesEmu


namespace NesEmu

theorem busRead_debug (s : System) (d : NoCloneDebugState) (addr : Nat) :
    ({ s with debug := d } : System).busRead addr
      = ((s.busRead addr).1, { (s.busRead addr).2 with debug := d }) := by
  by_cases h1 : addr ≤ 0x1fff
  · simp only [System.busRead, h1, if_true]
  by_cases h2 : addr ≤ 0x3fff
  · simp only [System.busRead, h1, h2, if_true, if_false]
  by_cases h3 : addr ≤ 0x401f
  · by_cases h4 : addr - 0x4000 = 0x14
    · simp only [System.busRead, h1, h2, h3, h4, if_true, if_false]
    by_cases h5 : addr - 0x4000 = 0x16
    · simp only [System.busRead, h1, h2, h3, h4, h5, if_true, if_false]
      try exact Prod.ext rfl rfl
    by_cases h6 : addr - 0x4000 = 0x17
    · simp only [System.busRead, h1, h2, h3, h4, h5, h6, if_true, if_false]
      try exact Prod.ext rfl rfl
    · simp only [System.busRead, h1, h2, h3, h4, h5, h6, if_true, if_false]
      try exact Prod.ext rfl rfl
  · simp only [System.busRead, h1, h2, h3, if_true, if_false]

end NesEmu

namespace NesEmu

theorem step_ppu_debug (s : System) (d : NoCloneDebugState) :
    ({ s with debug := d } : System).step_ppu
      = ({ (s.step_ppu).1 with debug := d }, (s.step_ppu).2) :=
  Prod.ext rfl rfl

theorem stepPpuN_debug (k : Nat) : ∀ (s : System) (d : NoCloneDebugState),
    ({ s with debug := d } : System).stepPpuN k
      = ({ (s.stepPpuN k).1 with debug := d }, (s.stepPpuN k).2) := by
  induction k with
  | zero => intro s d; exact Prod.ext rfl rfl
  | succ k ih =>
    intro s d
    simp only [System.stepPpuN, step_ppu_debug]
    by_cases hb : (s.step_ppu).2
    · simp only [hb, if_true]
      exact ih (s.step_ppu).1 d
    · simp only [hb, if_false]
      exact Prod.ext rfl rfl

theorem step_for_cpu_cycle_debug (s : System) (d : NoCloneDebugState) :
    ({ s with debug := d } : System).step_for_cpu_cycle
      = { s.step_for_cpu_cycle with debug := d } := by
  have h := stepPpuN_debug 3
    { s with apu := (s.apu.step).1, dmc_dma_request := (s.apu.step).2 } d
  exact congrArg Prod.fst h

theorem read_debug (s : System) (d : NoCloneDebugState) (addr : Nat) :
    ({ s with debug := d } : System).read addr
      = ((s.read addr).1, { (s.read addr).2 with debug := d }) := by
  simp only [System.read, busRead_debug, step_for_cpu_cycle_debug]
  exact Prod.ext rfl rfl

end NesEmu

namespace NesEmu

theorem busRead_open_bus (s : System) (addr : Nat) :
    (s.busRead addr).2.open_bus_value = s.open_bus_value := by
  by_cases h1 : addr ≤ 0x1fff
  · simp only [System.busRead, h1, if_true]
  by_cases h2 : addr ≤ 0x3fff
  · simp only [System.busRead, h1, h2, if_true, if_false]
  by_cases h3 : addr ≤ 0x401f
  · by_cases h4 : addr - 0x4000 = 0x14
    · simp only [System.busRead, h1, h2, h3, h4, if_true, if_false]
    by_cases h5 : addr - 0x4000 = 0x16
    · simp only [System.busRead, h1, h2, h3, h4, h5, if_true, if_false]
      try rfl
    by_cases h6 : addr - 0x4000 = 0x17
    · simp only [System.busRead, h1, h2, h3, h4, h5, h6, if_true, if_false]
      try rfl
    · simp only [System.busRead, h1, h2, h3, h4, h5, h6, if_true, if_false]
      try rfl
  · simp only [System.busRead, h1, h2, h3, if_true, if_false]

theorem busWrite_open_bus (s : System) (addr data : Nat) :
    (s.busWrite addr data).open_bus_value = s.open_bus_value := by
  by_cases h1 : addr ≤ 0x1fff
  · simp only [System.busWrite, h1, if_true]
  by_cases h2 : addr ≤ 0x3fff
  · simp only [System.busWrite, h1, h2, if_true, if_false]
  by_cases h3 : addr ≤ 0x401f
  · by_cases h4 : addr - 0x4000 = 0x14
    · simp only [System.busWrite, h1, h2, h3, h4, if_true, if_false]
    by_cases h5 : addr - 0x4000 = 0x16
    · simp only [System.busWrite, h1, h2, h3, h4, h5, if_true, if_false]
      try rfl
    by_cases h6 : addr - 0x4000 = 0x17
    · simp only [System.busWrite, h1, h2, h3, h4, h5, h6, if_true, if_false]
      try rfl
    · simp only [System.busWrite, h1, h2, h3, h4, h5, h6, if_true, if_false]
      try rfl
  · simp only [System.busWrite, h1, h2, h3, if_true, if_false]

theorem cpu_read_as_read (s : System) (addr : Nat) :
    s.cpu_read addr
      = ({ s with debug :=
            (s.check_watch_points addr WatchOps.READ).debug.bumpReads addr } : System).read addr := rfl

end NesEmu

namespace NesEmu

/-- The `System::cpu_read` is the underlying `read` on a state whose debug
bookkeeping (watchpoint check, I/O-stat bump) has been applied. -/
theorem dummy_cpu_read_as_read (s : System) (addr : Nat) :
    s.dummy_cpu_read addr
      = (({ s with debug :=
            (s.check_watch_points addr (WatchOps.DUMMY ||| WatchOps.READ)).debug.bumpReads addr } :
          System).read addr).2 := rfl

/-- The `System::cpu_fetch` is the underlying `read` on a state whose debug
bookkeeping has been applied. -/
theorem cpu_fetch_as_read (s : System) (addr : Nat) :
    s.cpu_fetch addr
      = ({ s with debug :=
            (s.check_watch_points addr WatchOps.EXECUTE).debug.bumpExecute addr } : System).read addr := rfl

/-- The `System::cpu_write` is the underlying `write` on a state whose debug
bookkeeping has been applied. -/
theorem cpu_write_as_write (s : System) (addr data : Nat) :
    s.cpu_write addr data
      = ({ s with debug :=
            (s.check_watch_points addr WatchOps.WRITE).debug.bumpWrites addr } : System).write addr data := rfl

/-- The `System::read` returns the device value with its undefined bits filled
from the pre-read latch, and stores the returned value into the latch. -/
theorem read_spec (s : System) (addr : Nat) :
    (s.read addr).1
        = ((s.busRead addr).1.1 &&& (0xff ^^^ (s.busRead addr).1.2)) |||
          (s.open_bus_value &&& (s.busRead addr).1.2) ∧
    (s.read addr).2.open_bus_value = (s.read addr).1 := by
  have hf := (step_for_cpu_cycle_frame (s.busRead addr).2).1
  have hb := busRead_open_bus s addr
  constructor
  · show (((s.busRead addr).2.step_for_cpu_cycle).apply_open_bus_bits_mut
      (s.busRead addr).1.1 (s.busRead addr).1.2).1 = _
    simp only [System.apply_open_bus_bits_mut, hf, hb]
  · rfl

/-- The `System::cpu_read` returns the same value as the underlying `read` and
performs the same latch update. -/
theorem cpu_read_spec (s : System) (addr : Nat) :
    (s.cpu_read addr).1 = (s.read addr).1 ∧
    (s.cpu_read addr).2.open_bus_value = (s.read addr).2.open_bus_value := by
  rw [cpu_read_as_read, read_debug]
  exact ⟨rfl, rfl⟩

/-- The `System::dummy_cpu_read` discards the value but still performs the
same latch update as `read`. -/
theorem dummy_cpu_read_spec (s : System) (addr : Nat) :
    (s.dummy_cpu_read addr).open_bus_value = (s.read addr).2.open_bus_value := by
  rw [dummy_cpu_read_as_read, read_debug]

/-- The `System::cpu_fetch` returns the same value as the underlying `read`
and performs the same latch update. -/
theorem cpu_fetch_spec (s : System) (addr : Nat) :
    (s.cpu_fetch addr).1 = (s.read addr).1 ∧
    (s.cpu_fetch addr).2.open_bus_value = (s.read addr).2.open_bus_value := by
  rw [cpu_fetch_as_read, read_debug]
  exact ⟨rfl, rfl⟩

/-- The address-decode write is oblivious to the debug state. -/
theorem busWrite_debug (s : System) (d : NoCloneDebugState) (addr data : Nat) :
    ({ s with debug := d } : System).busWrite addr data
      = { s.busWrite addr data with debug := d } := by
  by_cases h1 : addr ≤ 0x1fff
  · simp only [System.busWrite, h1, if_true]
  by_cases h2 : addr ≤ 0x3fff
  · simp only [System.busWrite, h1, h2, if_true, if_false]
  by_cases h3 : addr ≤ 0x401f
  · by_cases h4 : addr - 0x4000 = 0x14
    · simp only [System.busWrite, h1, h2, h3, h4, if_true, if_false]
    by_cases h5 : addr - 0x4000 = 0x16
    · simp only [System.busWrite, h1, h2, h3, h4, h5, if_true, if_false]
      try rfl
    by_cases h6 : addr - 0x4000 = 0x17
    · simp only [System.busWrite, h1, h2, h3, h4, h5, h6, if_true, if_false]
      try rfl
    · simp only [System.busWrite, h1, h2, h3, h4, h5, h6, if_true, if_false]
      try rfl
  · simp only [System.busWrite, h1, h2, h3, if_true, if_false]

/-- The `System::write` is oblivious to the debug state. -/
theorem write_debug (s : System) (d : NoCloneDebugState) (addr data : Nat) :
    ({ s with debug := d } : System).write addr data
      = { s.write addr data with debug := d } := by
  show (({ s with debug := d } : System).busWrite addr data).step_for_cpu_cycle = _
  rw [busWrite_debug]
  exact step_for_cpu_cycle_debug (s.busWrite addr data) d

/-- The `System::write` never touches the open-bus latch. -/
theorem write_open_bus (s : System) (addr data : Nat) :
    (s.write addr data).open_bus_value = s.open_bus_value := by
  have hf := (step_for_cpu_cycle_frame (s.busWrite addr data)).1
  exact hf.trans (busWrite_open_bus s addr data)

/-- The `System::cpu_write` never touches the open-bus latch. -/
theorem cpu_write_open_bus (s : System) (addr data : Nat) :
    (s.cpu_write addr data).open_bus_value = s.open_bus_value := by
  rw [cpu_write_as_write, write_debug]
  exact write_open_bus s addr data

end NesEmu

namespace NesEmu

/-- The `System::peek` computes exactly the value a side-effecting `read`
would return from the same state: same address decode, same per-range
undefined-bit masks, same open-bus fill from the same latch. -/
theorem peek_eq_read (s : System) (addr : Nat) : s.peek addr = (s.read addr).1 := by
  rw [(read_spec s addr).1]
  by_cases h1 : addr ≤ 0x1fff
  · simp only [System.peek, System.busRead, System.apply_open_bus_bits, h1, if_true]
  by_cases h2 : addr ≤ 0x3fff
  · simp only [System.peek, System.busRead, System.apply_open_bus_bits,
      Ppu.system_bus_read, Ppu.system_bus_peek, h1, h2, if_true, if_false]
  by_cases h3 : addr ≤ 0x401f
  · by_cases h4 : addr - 0x4000 = 0x14
    · simp only [System.peek, System.busRead, System.apply_open_bus_bits,
        h1, h2, h3, h4, if_true, if_false]
    by_cases h5 : addr - 0x4000 = 0x16
    · simp only [System.peek, System.busRead, System.apply_open_bus_bits,
        Port.read, Port.peek, h1, h2, h3, h4, h5, if_true, if_false]
      norm_num
    by_cases h6 : addr - 0x4000 = 0x17
    · simp only [System.peek, System.busRead, System.apply_open_bus_bits,
        Port.read, Port.peek, h1, h2, h3, h4, h5, h6, if_true, if_false]
      norm_num
    · simp only [System.peek, System.busRead, System.apply_open_bus_bits,
        Apu.read, Apu.peek, h1, h2, h3, h4, h5, h6, if_true, if_false]
  · simp only [System.peek, System.busRead, System.apply_open_bus_bits,
      Cartridge.system_bus_read, Cartridge.system_bus_peek, h1, h2, h3, if_true, if_false]

end NesEmu

namespace Legacy

/-- The catch-up loop, when no `FinishedFrame` occurs in its window, runs to
completion: the PPU clock advances by exactly `delta`, every `RaiseNmi` dot
appends its clock to the NMI delivery log in order, and nothing else
changes. -/
theorem ppuCatchUp_clean (delta : Nat) : ∀ n : Nes,
    (∀ i, i < delta → n.system.ppuStatusAt (n.ppu_clock + i) ≠ PpuStatus.finishedFrame) →
    ppuCatchUp n delta =
      ({ n with ppu_clock := n.ppu_clock + delta,
                cpu := { n.cpu with
                  nmiLog := n.cpu.nmiLog ++ raisesIn n.system n.ppu_clock delta } },
       false) := by
  induction delta with
  | zero =>
    intro n _
    simp [ppuCatchUp, raisesIn]
  | succ delta ih =>
    intro n h
    have h0 : n.system.ppuStatusAt n.ppu_clock ≠ PpuStatus.finishedFrame := by
      have := h 0 (Nat.succ_pos _)
      simpa using this
    have harith : n.ppu_clock + 1 + delta = n.ppu_clock + (delta + 1) := by omega
    have h' : ∀ i, i < delta →
        n.system.ppuStatusAt (n.ppu_clock + 1 + i) ≠ PpuStatus.finishedFrame := by
      intro i hi
      have := h (i + 1) (by omega)
      have e : n.ppu_clock + 1 + i = n.ppu_clock + (i + 1) := by omega
      rw [e]
      exact this
    cases hs : n.system.ppuStatusAt n.ppu_clock with
    | finishedFrame => exact absurd hs h0
    | none =>
      simp only [ppuCatchUp, System.step_ppu, hs]
      rw [ih ⟨n.cpu, n.system, n.cpu_clock, n.ppu_clock + 1⟩ (fun i hi => h' i hi)]
      simp [raisesIn, hs, harith]
    | raiseNmi =>
      simp only [ppuCatchUp, System.step_ppu, hs]
      rw [ih ⟨n.cpu.interruptNmi n.ppu_clock, n.system, n.cpu_clock, n.ppu_clock + 1⟩
        (fun i hi => h' i hi)]
      simp [raisesIn, hs, harith, Cpu.interruptNmi]

end Legacy

namespace Legacy

/-- The catch-up loop, when the first `FinishedFrame` in its window is at
offset `j`, exits the frame loop right after that dot: the PPU clock
advances by exactly `j + 1`, only the `RaiseNmi` dots before offset `j`
are delivered, and the CPU instruction engine never runs. -/
theorem ppuCatchUp_finish (j : Nat) : ∀ (delta : Nat) (n : Nes), j < delta →
    n.system.ppuStatusAt (n.ppu_clock + j) = PpuStatus.finishedFrame →
    (∀ i, i < j → n.system.ppuStatusAt (n.ppu_clock + i) ≠ PpuStatus.finishedFrame) →
    ppuCatchUp n delta =
      ({ n with ppu_clock := n.ppu_clock + j + 1,
                cpu := { n.cpu with
                  nmiLog := n.cpu.nmiLog ++ raisesIn n.system n.ppu_clock j } },
       true) := by
  induction j with
  | zero =>
    intro delta n hlt hfin _
    cases delta with
    | zero => omega
    | succ d =>
      have hs : n.system.ppuStatusAt n.ppu_clock = PpuStatus.finishedFrame := by
        simpa using hfin
      simp only [ppuCatchUp, System.step_ppu, hs]
      simp [raisesIn]
  | succ j ih =>
    intro delta n hlt hfin hpre
    cases delta with
    | zero => omega
    | succ d =>
      have h0 : n.system.ppuStatusAt n.ppu_clock ≠ PpuStatus.finishedFrame := by
        have := hpre 0 (Nat.succ_pos _)
        simpa using this
      have harith : n.ppu_clock + 1 + j = n.ppu_clock + (j + 1) := by omega
      have hfin' : n.system.ppuStatusAt (n.ppu_clock + 1 + j) = PpuStatus.finishedFrame := by
        rw [harith]; exact hfin
      have hpre' : ∀ i, i < j →
          n.system.ppuStatusAt (n.ppu_clock + 1 + i) ≠ PpuStatus.finishedFrame := by
        intro i hi
        have := hpre (i + 1) (by omega)
        have e : n.ppu_clock + 1 + i = n.ppu_clock + (i + 1) := by omega
        rw [e]
        exact this
      cases hs : n.system.ppuStatusAt n.ppu_clock with
      | finishedFrame => exact absurd hs h0
      | none =>
        simp only [ppuCatchUp, System.step_ppu, hs]
        rw [ih d ⟨n.cpu, n.system, n.cpu_clock, n.ppu_clock + 1⟩ (by omega)
          hfin' (fun i hi => hpre' i hi)]
        simp [raisesIn, hs, harith]
      | raiseNmi =>
        simp only [ppuCatchUp, System.step_ppu, hs]
        rw [ih d ⟨n.cpu.interruptNmi n.ppu_clock, n.system, n.cpu_clock, n.ppu_clock + 1⟩
          (by omega) hfin' (fun i hi => hpre' i hi)]
        simp [raisesIn, hs, harith, Cpu.interruptNmi]

/-- Unconditional bounds on the catch-up loop: the CPU clock, the system
(including the OAM-DMA suspension budget) and the instruction-step state
are untouched; the PPU clock advances by at most `delta`, and by exactly
`delta` when the loop was not cut short by a finished frame. -/
theorem ppuCatchUp_bounds (delta : Nat) : ∀ n : Nes,
    (ppuCatchUp n delta).1.cpu_clock = n.cpu_clock ∧
    (ppuCatchUp n delta).1.system = n.system ∧
    (ppuCatchUp n delta).1.ppu_clock ≤ n.ppu_clock + delta ∧
    ((ppuCatchUp n delta).2 = false →
      (ppuCatchUp n delta).1.ppu_clock = n.ppu_clock + delta) ∧
    (ppuCatchUp n delta).1.cpu.steps = n.cpu.steps ∧
    (ppuCatchUp n delta).1.cpu.cyclesAt = n.cpu.cyclesAt ∧
    (ppuCatchUp n delta).1.cpu.suspendSetAt = n.cpu.suspendSetAt := by
  induction delta with
  | zero =>
    intro n
    simp [ppuCatchUp]
  | succ delta ih =>
    intro n
    cases hs : n.system.ppuStatusAt n.ppu_clock with
    | none =>
      have ihn := ih ⟨n.cpu, n.system, n.cpu_clock, n.ppu_clock + 1⟩
      have e1 : (ppuCatchUp ⟨n.cpu, n.system, n.cpu_clock, n.ppu_clock + 1⟩ delta).1.cpu_clock
          = n.cpu_clock := ihn.1
      have e2 : (ppuCatchUp ⟨n.cpu, n.system, n.cpu_clock, n.ppu_clock + 1⟩ delta).1.system
          = n.system := ihn.2.1
      have e3 : (ppuCatchUp ⟨n.cpu, n.system, n.cpu_clock, n.ppu_clock + 1⟩ delta).1.ppu_clock
          ≤ n.ppu_clock + 1 + delta := ihn.2.2.1
      have e4 : (ppuCatchUp ⟨n.cpu, n.system, n.cpu_clock, n.ppu_clock + 1⟩ delta).2 = false →
          (ppuCatchUp ⟨n.cpu, n.system, n.cpu_clock, n.ppu_clock + 1⟩ delta).1.ppu_clock
          = n.ppu_clock + 1 + delta := ihn.2.2.2.1
      have e5 : (ppuCatchUp ⟨n.cpu, n.system, n.cpu_clock, n.ppu_clock + 1⟩ delta).1.cpu.steps
          = n.cpu.steps := ihn.2.2.2.2.1
      have e6 : (ppuCatchUp ⟨n.cpu, n.system, n.cpu_clock, n.ppu_clock + 1⟩ delta).1.cpu.cyclesAt
          = n.cpu.cyclesAt := ihn.2.2.2.2.2.1
      have e7 : (ppuCatchUp ⟨n.cpu, n.system, n.cpu_clock, n.ppu_clock + 1⟩ delta).1.cpu.suspendSetAt
          = n.cpu.suspendSetAt := ihn.2.2.2.2.2.2
      simp only [ppuCatchUp, System.step_ppu, hs]
      exact ⟨e1, e2, by omega, fun hf => by have := e4 hf; omega, e5, e6, e7⟩
    | finishedFrame =>
      simp only [ppuCatchUp, System.step_ppu, hs]
      refine ⟨by trivial, by trivial, by omega, ?_, by trivial, by trivial, by trivial⟩
      intro hf
      simp at hf
    | raiseNmi =>
      have ihn := ih ⟨n.cpu.interruptNmi n.ppu_clock, n.system, n.cpu_clock, n.ppu_clock + 1⟩
      have e1 : (ppuCatchUp ⟨n.cpu.interruptNmi n.ppu_clock, n.system, n.cpu_clock,
          n.ppu_clock + 1⟩ delta).1.cpu_clock = n.cpu_clock := ihn.1
      have e2 : (ppuCatchUp ⟨n.cpu.interruptNmi n.ppu_clock, n.system, n.cpu_clock,
          n.ppu_clock + 1⟩ delta).1.system = n.system := ihn.2.1
      have e3 : (ppuCatchUp ⟨n.cpu.interruptNmi n.ppu_clock, n.system, n.cpu_clock,
          n.ppu_clock + 1⟩ delta).1.ppu_clock ≤ n.ppu_clock + 1 + delta := ihn.2.2.1
      have e4 : (ppuCatchUp ⟨n.cpu.interruptNmi n.ppu_clock, n.system, n.cpu_clock,
          n.ppu_clock + 1⟩ delta).2 = false →
          (ppuCatchUp ⟨n.cpu.interruptNmi n.ppu_clock, n.system, n.cpu_clock,
          n.ppu_clock + 1⟩ delta).1.ppu_clock = n.ppu_clock + 1 + delta := ihn.2.2.2.1
      have e5 : (ppuCatchUp ⟨n.cpu.interruptNmi n.ppu_clock, n.system, n.cpu_clock,
          n.ppu_clock + 1⟩ delta).1.cpu.steps = n.cpu.steps := ihn.2.2.2.2.1
      have e6 : (ppuCatchUp ⟨n.cpu.interruptNmi n.ppu_clock, n.system, n.cpu_clock,
          n.ppu_clock + 1⟩ delta).1.cpu.cyclesAt = n.cpu.cyclesAt := ihn.2.2.2.2.2.1
      have e7 : (ppuCatchUp ⟨n.cpu.interruptNmi n.ppu_clock, n.system, n.cpu_clock,
          n.ppu_clock + 1⟩ delta).1.cpu.suspendSetAt = n.cpu.suspendSetAt := ihn.2.2.2.2.2.2
      simp only [ppuCatchUp, System.step_ppu, hs]
      exact ⟨e1, e2, by omega, fun hf => by have := e4 hf; omega, e5, e6, e7⟩

end Legacy

namespace Legacy

/-- One frame-loop iteration preserves the master-clock invariant
`ppu_clock ≤ 3 * cpu_clock`. -/
theorem tickFrameIter_inv (n : Nes) (h : n.ppu_clock ≤ 3 * n.cpu_clock) :
    (tickFrameIter n).1.ppu_clock ≤ 3 * (tickFrameIter n).1.cpu_clock := by
  obtain ⟨e1, e2, e3, e4, -, -, -⟩ := ppuCatchUp_bounds (n.cpu_clock * 3 - n.ppu_clock) n
  simp only [tickFrameIter]
  by_cases hf : (ppuCatchUp n (n.cpu_clock * 3 - n.ppu_clock)).2
  · simp only [hf, if_true]
    rw [e1]
    omega
  · have hpc := e4 (by simpa using hf)
    simp only [hf, Bool.false_eq_true, if_false]
    by_cases hd : (ppuCatchUp n (n.cpu_clock * 3 - n.ppu_clock)).1.system.oam_dma_cpu_suspend_cycles = 0
    · simp only [hd, if_true]
      simp only [Cpu.step]
      rw [e1]
      omega
    · simp only [hd, if_false]
      rw [e2] at hd ⊢
      rw [e1]
      omega

/-- The master-clock invariant holds at the head of every frame-loop
iteration reachable from an invariant-satisfying state. -/
theorem tickFrameHead_inv (k : Nat) : ∀ n : Nes, n.ppu_clock ≤ 3 * n.cpu_clock →
    (tickFrameHead k n).ppu_clock ≤ 3 * (tickFrameHead k n).cpu_clock := by
  induction k with
  | zero => intro n h; exact h
  | succ k ih =>
    intro n h
    exact ih (tickFrameIter n).1 (tickFrameIter_inv n h)

end Legacy

namespace NesEmu

/-- Masking a byte-sized value with `0xff` is the identity. -/
theorem land_ff (w : Nat) (h : w < 0x100) : w &&& 0xff = w := by
  have e : (0xff : Nat) = 2 ^ 8 - 1 := by norm_num
  rw [e, Nat.and_pow_two_sub_one_eq_mod, Nat.mod_eq_of_lt (by omega : w < 2 ^ 8)]

end NesEmu

/-- Claim C1: after `N` calls to `System::step_for_cpu_cycle` starting from
a freshly constructed system (which has no PPU breakpoints configured, so
none can be hit), the PPU clock equals `3 * N` and the APU clock equals
`N`; moreover a single call on any state whose next three PPU dots are
breakpoint-free advances the PPU clock by exactly 3 and the APU clock by
exactly 1. -/
theorem clock_ratio_3to1 (ppuRegs : Nat → Nat) (dmc : Nat → Option Nat)
    (apuRegs : Nat → Nat × Nat) (cart : NesEmu.Cartridge) (N : Nat)
    (s : NesEmu.System) (h : s.ppu.cleanSteps 3 = true) :
    ((NesEmu.System.new ppuRegs dmc apuRegs cart).stepN N).ppu.clock = 3 * N ∧
    ((NesEmu.System.new ppuRegs dmc apuRegs cart).stepN N).apu.clock = N ∧
    (s.step_for_cpu_cycle).ppu.clock = s.ppu.clock + 3 ∧
    (s.step_for_cpu_cycle).apu.clock = s.apu.clock + 1 := by
  have hn := NesEmu.stepN_clocks N (NesEmu.System.new ppuRegs dmc apuRegs cart) rfl
  have hc := NesEmu.step_for_cpu_cycle_clean s h
  exact ⟨by simpa [NesEmu.System.new, NesEmu.Ppu.new, NesEmu.Apu.new] using hn.1,
         by simpa [NesEmu.System.new, NesEmu.Ppu.new, NesEmu.Apu.new] using hn.2.1,
         hc.1, hc.2.1⟩

/-- Witness for C1 at a concrete fresh system and `N = 2`. -/
theorem clock_ratio_3to1_witness :
    (sys0.stepN 2).ppu.clock = 3 * 2 ∧
    (sys0.stepN 2).apu.clock = 2 ∧
    (sys0.step_for_cpu_cycle).ppu.clock = sys0.ppu.clock + 3 ∧
    (sys0.step_for_cpu_cycle).apu.clock = sys0.apu.clock + 1 :=
  clock_ratio_3to1 (fun _ => 0) (fun _ => none) (fun _ => (0, 0)) cart0 2 sys0 (by decide)

/-- Claim C2: a side-effecting CPU bus read at any address, with prior
latch value `L = open_bus_value` and the addressed device leaving
undefined-bit mask `M`, returns `(device_value &&& (0xff ^^^ M)) ||| (L &&& M)`
(the 8-bit form of `(device_value & !M) | (L & M)`), and afterwards the
latch equals exactly the returned value; the latch update happens for
`cpu_read`, `dummy_cpu_read` and `cpu_fetch` alike. -/
theorem open_bus_read_update (s : NesEmu.System) (addr : Nat) :
    (s.cpu_read addr).1
        = ((s.busRead addr).1.1 &&& (0xff ^^^ (s.busRead addr).1.2)) |||
          (s.open_bus_value &&& (s.busRead addr).1.2) ∧
    (s.cpu_read addr).2.open_bus_value = (s.cpu_read addr).1 ∧
    (s.dummy_cpu_read addr).open_bus_value = (s.cpu_read addr).1 ∧
    (s.cpu_fetch addr).1 = (s.cpu_read addr).1 ∧
    (s.cpu_fetch addr).2.open_bus_value = (s.cpu_read addr).1 := by
  have hr := NesEmu.read_spec s addr
  have h1 := NesEmu.cpu_read_spec s addr
  have h2 := NesEmu.dummy_cpu_read_spec s addr
  have h3 := NesEmu.cpu_fetch_spec s addr
  exact ⟨h1.1.trans hr.1,
         h1.2.trans (hr.2.trans h1.1.symm),
         h2.trans (hr.2.trans h1.1.symm),
         h3.1.trans h1.1.symm,
         h3.2.trans (hr.2.trans h1.1.symm)⟩

/-- Claim C3 counterexample: from the fresh system (latch 0), writing
`0xff` to address 0 via `cpu_write` and then reading the fully-undefined
register `0x4014` returns the old latch value 0 — not
`(0 & !0xff) | (0xff & 0xff) = 0xff` as the claim predicts — even though
the write really stored `0xff` into WRAM.  Writes do not update the
open-bus latch. -/
theorem open_bus_write_counterexample :
    ((sys0.cpu_write 0 0xff).cpu_read 0x4014).1 = 0 ∧
    (sys0.cpu_write 0 0xff).wram 0 = 0xff ∧
    ((sys0.cpu_write 0 0xff).cpu_read 0x4014).1
      ≠ (0 &&& (0xff ^^^ 0xff)) ||| (0xff &&& 0xff) := by decide

/-- Claim C3 amended: `write`/`cpu_write` never update the open-bus latch;
only CPU reads do.  After a write, a subsequent read fills undefined bits
from the latch as it was before the write (not from the written byte), and
that read then stores its returned value into the latch. -/
theorem open_bus_write_amended (s : NesEmu.System) (addr data a2 : Nat) :
    (s.write addr data).open_bus_value = s.open_bus_value ∧
    (s.cpu_write addr data).open_bus_value = s.open_bus_value ∧
    ((s.cpu_write addr data).cpu_read a2).1
        = (((s.cpu_write addr data).busRead a2).1.1 &&&
            (0xff ^^^ ((s.cpu_write addr data).busRead a2).1.2)) |||
          (s.open_bus_value &&& ((s.cpu_write addr data).busRead a2).1.2) ∧
    ((s.cpu_write addr data).cpu_read a2).2.open_bus_value
        = ((s.cpu_write addr data).cpu_read a2).1 := by
  have hw := NesEmu.cpu_write_open_bus s addr data
  have h1 := NesEmu.cpu_read_spec (s.cpu_write addr data) a2
  have hr := NesEmu.read_spec (s.cpu_write addr data) a2
  refine ⟨NesEmu.write_open_bus s addr data, hw, ?_,
    h1.2.trans (hr.2.trans h1.1.symm)⟩
  rw [h1.1, hr.1, hw]

/-- Claim C5: `System::step_for_cpu_cycle` has the precondition that no DMC
DMA request is pending; exactly then its `debug_assert` passes, and after
the call the only outstanding request is the one freshly returned by
`Apu::step`.  If a request is still pending, the assertion fails. -/
theorem dma_request_precondition (s : NesEmu.System) :
    (s.dmc_dma_request = none →
      s.stepAssertOk = true ∧
      (s.step_for_cpu_cycle).dmc_dma_request = (s.apu.step).2) ∧
    (s.dmc_dma_request ≠ none → s.stepAssertOk = false) := by
  constructor
  · intro h
    exact ⟨by simp [NesEmu.System.stepAssertOk, h],
           (NesEmu.step_for_cpu_cycle_apu s).2⟩
  · intro h
    cases ho : s.dmc_dma_request with
    | none => exact absurd ho h
    | some r => simp [NesEmu.System.stepAssertOk, ho]

/-- Witness for C5 at the fresh system, which has no pending request. -/
theorem dma_request_precondition_witness :
    sys0.stepAssertOk = true ∧
    (sys0.step_for_cpu_cycle).dmc_dma_request = (sys0.apu.step).2 :=
  (dma_request_precondition sys0).1 rfl

/-- Claim C6: `System::peek` returns exactly the value a side-effecting
read (`read`, and hence `cpu_read`) would return from the same state —
identical address decode, identical undefined-bit masks, identical
open-bus fill from the same latch.  `peek` is a pure function of the
state: it steps no device and leaves the latch, WRAM and clocks unchanged
by construction. -/
theorem peek_matches_read (s : NesEmu.System) (addr : Nat) :
    s.peek addr = (s.read addr).1 ∧ s.peek addr = (s.cpu_read addr).1 :=
  ⟨NesEmu.peek_eq_read s addr,
   (NesEmu.peek_eq_read s addr).trans (NesEmu.cpu_read_spec s addr).1.symm⟩

/-- Claim C9: cloning a `System` copies every architecturally-visible
field unchanged (PPU, APU, DMA slot, open-bus latch, WRAM, cartridge, both
ports) while the debug-only state is reset to its default empty value
rather than copied. -/
theorem clone_resets_debug (s : NesEmu.System) :
    (s.clone).ppu = s.ppu ∧
    (s.clone).apu = s.apu ∧
    (s.clone).dmc_dma_request = s.dmc_dma_request ∧
    (s.clone).open_bus_value = s.open_bus_value ∧
    (s.clone).wram = s.wram ∧
    (s.clone).cartridge = s.cartridge ∧
    (s.clone).port1 = s.port1 ∧
    (s.clone).port2 = s.port2 ∧
    (s.clone).debug = NesEmu.NoCloneDebugState.default ∧
    NesEmu.NoCloneDebugState.default.watch_points = [] ∧
    NesEmu.NoCloneDebugState.default.watch_hit = false :=
  ⟨rfl, rfl, rfl, rfl, rfl, rfl, rfl, rfl, rfl, rfl, rfl⟩

namespace NesEmu

/-- Reading any address in the WRAM window returns the mirrored WRAM byte
(masked to 8 bits; the WRAM range drives every bit, so the latch
contributes nothing). -/
theorem read_wram (s : System) (a : Nat) (ha : a ≤ 0x1fff) :
    (s.read a).1 = s.wram (a % 0x800) &&& 0xff := by
  rw [(read_spec s a).1]
  simp only [System.busRead, WRAM_SIZE, ha, if_true]
  simp

/-- Peeking any address in the WRAM window returns the mirrored WRAM byte
(masked to 8 bits). -/
theorem peek_wram (s : System) (a : Nat) (ha : a ≤ 0x1fff) :
    s.peek a = s.wram (a % 0x800) &&& 0xff := by
  simp only [System.peek, System.apply_open_bus_bits, WRAM_SIZE, ha, if_true]
  simp

/-- A `cpu_write` into the WRAM window stores the byte at the mirrored
index. -/
theorem cpu_write_wram (s : System) (a d : Nat) (ha : a ≤ 0x1fff) :
    (s.cpu_write a d).wram = fun i => if i = a % 0x800 then d else s.wram i := by
  rw [cpu_write_as_write, write_debug]
  have e : s.write a d = (s.busWrite a d).step_for_cpu_cycle := rfl
  show (s.write a d).wram = _
  rw [e, (step_for_cpu_cycle_frame (s.busWrite a d)).2.1]
  simp only [System.busWrite, WRAM_SIZE, ha, if_true]

end NesEmu

/-- Claim C7 counterexample: the claim quantifies over all `a` in
`0x0000..0x2000` with `k ∈ {1,2,3}`, but for `a = 0x1800`, `k = 1` the
mirror address `a + 0x800` is `0x2000`, which is dispatched to the PPU
registers, not WRAM: on a system whose PPU drives 1 for register reads
while WRAM holds 0, the two reads differ. -/
theorem wram_mirror_counterexample :
    (0x1800 : Nat) < 0x2000 ∧
    (sysP.read (0x1800 + 0x800 * 1)).1 ≠ (sysP.read 0x1800).1 := by decide

/-- Claim C7 amended: WRAM mirroring holds within the WRAM window
`0x0000..0x2000`: whenever the mirror address `a + 0x800 * k` (k ≤ 3) also
lies below `0x2000`, reading it returns the same byte as reading `a`, both
equal to `wram[a % 0x800]`; `peek` agrees; and a `cpu_write` to `a` stores
to index `a % 0x800`, so the byte is visible at every in-window mirror
address `a2` with `a2 % 0x800 = a % 0x800`.  (Byte-invariant hypotheses
`wram value < 0x100`, `d < 0x100` reflect the source's `u8` typing.) -/
theorem wram_mirror_amended (s : NesEmu.System) (a k d a2 : Nat)
    (h1 : a < 0x2000) (hk : k ≤ 3) (h2 : a + 0x800 * k < 0x2000)
    (h3 : a2 < 0x2000) (h4 : a2 % 0x800 = a % 0x800)
    (hb : s.wram (a % 0x800) < 0x100) (hd : d < 0x100) :
    (s.read (a + 0x800 * k)).1 = (s.read a).1 ∧
    (s.read a).1 = s.wram (a % 0x800) ∧
    s.peek a = s.wram (a % 0x800) ∧
    (s.cpu_write a d).wram (a % 0x800) = d ∧
    (s.cpu_write a d).peek a2 = d := by
  have ha : a ≤ 0x1fff := by omega
  have hak : a + 0x800 * k ≤ 0x1fff := by omega
  have ha2 : a2 ≤ 0x1fff := by omega
  have hmod : (a + 0x800 * k) % 0x800 = a % 0x800 := Nat.add_mul_mod_self_left a 0x800 k
  have hw := NesEmu.cpu_write_wram s a d ha
  refine ⟨?_, ?_, ?_, ?_, ?_⟩
  · rw [NesEmu.read_wram s _ hak, NesEmu.read_wram s a ha, hmod]
  · rw [NesEmu.read_wram s a ha, NesEmu.land_ff _ hb]
  · rw [NesEmu.peek_wram s a ha, NesEmu.land_ff _ hb]
  · rw [hw]
    simp
  · rw [NesEmu.peek_wram _ a2 ha2, hw]
    simp only [h4, if_true, if_pos]
    exact NesEmu.land_ff d hd

/-- Witness for the amended C7 at `a = 5`, `k = 3`, `a2 = 0x1005`,
`d = 0xab` on the fresh system. -/
theorem wram_mirror_amended_witness :
    (sys0.read (5 + 0x800 * 3)).1 = (sys0.read 5).1 ∧
    (sys0.read 5).1 = sys0.wram (5 % 0x800) ∧
    sys0.peek 5 = sys0.wram (5 % 0x800) ∧
    (sys0.cpu_write 5 0xab).wram (5 % 0x800) = 0xab ∧
    (sys0.cpu_write 5 0xab).peek 0x1005 = 0xab :=
  wram_mirror_amended sys0 5 3 0xab 0x1005 (by decide) (by decide) (by decide)
    (by decide) (by decide) (by decide) (by decide)

namespace NesEmu

/-- A `cpu_write` leaves the controller ports and the APU write log exactly
as the address-decode dispatch left them (watchpoint bookkeeping and the
per-cycle step touch neither). -/
theorem cpu_write_dispatch (s : System) (a dd : Nat) :
    (s.cpu_write a dd).port1 = (s.busWrite a dd).port1 ∧
    (s.cpu_write a dd).port2 = (s.busWrite a dd).port2 ∧
    (s.cpu_write a dd).apu.writes = (s.busWrite a dd).apu.writes := by
  rw [cpu_write_as_write, write_debug]
  have hf := step_for_cpu_cycle_frame (s.busWrite a dd)
  have ha := step_for_cpu_cycle_apu (s.busWrite a dd)
  refine ⟨?_, ?_, ?_⟩
  · show (s.write a dd).port1 = _
    exact hf.2.2.1
  · show (s.write a dd).port2 = _
    exact hf.2.2.2.1
  · show (s.write a dd).apu.writes = _
    have h1 : (s.write a dd).apu.writes = ((s.busWrite a dd).apu.step.1).writes :=
      congrArg Apu.writes ha.1
    exact h1.trans rfl

/-- The address-decode dispatch at register `0x16`: both ports get the
strobe write and the APU gets the register write. -/
theorem busWrite_4016 (s : System) (d : Nat) :
    s.busWrite 0x4016 d
      = { s with port1 := s.port1.write_register d,
                 port2 := s.port2.write_register d,
                 apu := s.apu.write 0x4016 d } := by
  simp only [System.busWrite]
  norm_num

/-- The address-decode dispatch at register `0x17`: the APU only. -/
theorem busWrite_4017 (s : System) (d : Nat) :
    s.busWrite 0x4017 d = { s with apu := s.apu.write 0x4017 d } := by
  simp only [System.busWrite]
  norm_num

/-- The address-decode dispatch at register `0x14` (OAMDMA): handled inside
the CPU, so the bus write does nothing. -/
theorem busWrite_4014 (s : System) (d : Nat) :
    s.busWrite 0x4014 d = s := by
  simp only [System.busWrite]
  norm_num

/-- The address-decode read at register `0x17` reads Port 2's shift
register (top three bits undefined) and does not touch the APU. -/
theorem busRead_4017 (s : System) :
    (s.busRead 0x4017).1 = (s.port2.out, 0b11100000) ∧
    (s.busRead 0x4017).2.apu = s.apu := by
  constructor <;> (simp only [System.busRead, Port.read]; norm_num)

/-- The address-decode read at register `0x14` (write-only OAMDMA) drives
nothing: all 8 bits undefined. -/
theorem busRead_4014 (s : System) :
    (s.busRead 0x4014).1 = (0, 0xff) ∧ (s.busRead 0x4014).2 = s := by
  constructor <;> (simp only [System.busRead]; norm_num)

end NesEmu

/-- Claim C8: writes to `0x4016` reach Port 1's shift-register load (and
Port 2's) as well as the APU's register logic; writes to `0x4017` are
dispatched to the APU only, leaving both ports untouched; reads of
`0x4017` return Port 2's shift register under mask `0b1110_0000`, not an
APU value (the APU is untouched by the dispatch); and reads of `0x4014`
(write-only OAM-DMA trigger) return the open-bus latch with all 8 bits
undefined, while writes to `0x4014` dispatch to no device. -/
theorem io_register_dispatch (s : NesEmu.System) (d : Nat) :
    (s.cpu_write 0x4016 d).port1.reg = d ∧
    (s.cpu_write 0x4016 d).port2.reg = d ∧
    (s.cpu_write 0x4016 d).apu.writes = (0x4016, d) :: s.apu.writes ∧
    (s.cpu_write 0x4017 d).apu.writes = (0x4017, d) :: s.apu.writes ∧
    (s.cpu_write 0x4017 d).port1 = s.port1 ∧
    (s.cpu_write 0x4017 d).port2 = s.port2 ∧
    (s.read 0x4017).1 = (s.port2.out &&& 0x1f) ||| (s.open_bus_value &&& 0xe0) ∧
    (s.busRead 0x4017).2.apu = s.apu ∧
    (s.read 0x4014).1 = s.open_bus_value &&& 0xff ∧
    s.busWrite 0x4014 d = s := by
  obtain ⟨p16a, p16b, p16c⟩ := NesEmu.cpu_write_dispatch s 0x4016 d
  obtain ⟨p17a, p17b, p17c⟩ := NesEmu.cpu_write_dispatch s 0x4017 d
  have b16 := NesEmu.busWrite_4016 s d
  have b17 := NesEmu.busWrite_4017 s d
  have r17 := NesEmu.busRead_4017 s
  have r14 := NesEmu.busRead_4014 s
  refine ⟨?_, ?_, ?_, ?_, ?_, ?_, ?_, r17.2, ?_, NesEmu.busWrite_4014 s d⟩
  · rw [p16a, b16]; rfl
  · rw [p16b, b16]; rfl
  · rw [p16c, b16]; rfl
  · rw [p17c, b17]; rfl
  · rw [p17a, b17]
  · rw [p17b, b17]
  · rw [(NesEmu.read_spec s 0x4017).1, r17.1]
    norm_num [show (0xff ^^^ 0xe0 : Nat) = 0x1f from by decide]
  · rw [(NesEmu.read_spec s 0x4014).1, r14.1]
    simp

/-- Claim C4: one iteration of the `Nes::tick_frame` frame loop.  With the
window `delta = cpu_clock * 3 - ppu_clock`: (a) when no dot in the window
reports `FinishedFrame`, the PPU is stepped one dot at a time until
`ppu_clock = cpu_clock * 3`, each `RaiseNmi` dot delivers an NMI to the CPU
immediately (the delivery log gains exactly those dots, in order); then if
no OAM-DMA suspension is pending exactly one CPU instruction step runs and
its cycles are added to `cpu_clock`, otherwise no instruction runs, the
suspension budget is added to `cpu_clock` and cleared to zero.  (b) when
the first `FinishedFrame` is at offset `j`, the frame loop exits right
after that dot with no instruction step and no `cpu_clock` change, having
delivered exactly the `RaiseNmi` dots before offset `j`. -/
theorem tick_frame_iteration (n : Legacy.Nes) (h : n.ppu_clock ≤ n.cpu_clock * 3) :
    ((∀ i, i < n.cpu_clock * 3 - n.ppu_clock →
        n.system.ppuStatusAt (n.ppu_clock + i) ≠ Legacy.PpuStatus.finishedFrame) →
      (Legacy.tickFrameIter n).2 = false ∧
      (Legacy.tickFrameIter n).1.ppu_clock = n.cpu_clock * 3 ∧
      (Legacy.tickFrameIter n).1.cpu.nmiLog
        = n.cpu.nmiLog ++
            Legacy.raisesIn n.system n.ppu_clock (n.cpu_clock * 3 - n.ppu_clock) ∧
      (n.system.oam_dma_cpu_suspend_cycles = 0 →
        (Legacy.tickFrameIter n).1.cpu.steps = n.cpu.steps + 1 ∧
        (Legacy.tickFrameIter n).1.cpu_clock
          = n.cpu_clock + n.cpu.cyclesAt n.cpu.steps) ∧
      (n.system.oam_dma_cpu_suspend_cycles ≠ 0 →
        (Legacy.tickFrameIter n).1.cpu.steps = n.cpu.steps ∧
        (Legacy.tickFrameIter n).1.cpu_clock
          = n.cpu_clock + n.system.oam_dma_cpu_suspend_cycles ∧
        (Legacy.tickFrameIter n).1.system.oam_dma_cpu_suspend_cycles = 0)) ∧
    (∀ j, j < n.cpu_clock * 3 - n.ppu_clock →
      n.system.ppuStatusAt (n.ppu_clock + j) = Legacy.PpuStatus.finishedFrame →
      (∀ i, i < j → n.system.ppuStatusAt (n.ppu_clock + i) ≠ Legacy.PpuStatus.finishedFrame) →
      (Legacy.tickFrameIter n).2 = true ∧
      (Legacy.tickFrameIter n).1.ppu_clock = n.ppu_clock + j + 1 ∧
      (Legacy.tickFrameIter n).1.cpu.steps = n.cpu.steps ∧
      (Legacy.tickFrameIter n).1.cpu_clock = n.cpu_clock ∧
      (Legacy.tickFrameIter n).1.cpu.nmiLog
        = n.cpu.nmiLog ++ Legacy.raisesIn n.system n.ppu_clock j) := by
  constructor
  · intro hclean
    have hc := Legacy.ppuCatchUp_clean (n.cpu_clock * 3 - n.ppu_clock) n hclean
    have hp : n.ppu_clock + (n.cpu_clock * 3 - n.ppu_clock) = n.cpu_clock * 3 := by omega
    simp only [Legacy.tickFrameIter, hc, Bool.false_eq_true, if_false]
    by_cases hd : n.system.oam_dma_cpu_suspend_cycles = 0
    · simp only [hd, if_true, Legacy.Cpu.step]
      refine ⟨by trivial, hp, by trivial, fun _ => ⟨by trivial, by trivial⟩,
        fun hne => absurd rfl hne⟩
    · simp only [hd, if_false]
      refine ⟨by trivial, hp, by trivial, fun he => he.elim,
        fun _ => ⟨by trivial, by trivial, by trivial⟩⟩
  · intro j hj hfin hpre
    have hc := Legacy.ppuCatchUp_finish j (n.cpu_clock * 3 - n.ppu_clock) n hj hfin hpre
    simp only [Legacy.tickFrameIter, hc, if_true]
    exact ⟨by trivial, by trivial, by trivial, by trivial, by trivial⟩

/-- Witness for C4 at the concrete orchestrator state `nes0` (one CPU
cycle elapsed, dot 0 raises an NMI, no suspension pending): the iteration
catches the PPU up to clock 3, logs the NMI raised at dot 0, and runs one
instruction step of 2 cycles. -/
theorem tick_frame_iteration_witness :
    (Legacy.tickFrameIter nes0).2 = false ∧
    (Legacy.tickFrameIter nes0).1.ppu_clock = nes0.cpu_clock * 3 ∧
    (Legacy.tickFrameIter nes0).1.cpu.nmiLog
      = nes0.cpu.nmiLog ++
          Legacy.raisesIn nes0.system nes0.ppu_clock (nes0.cpu_clock * 3 - nes0.ppu_clock) ∧
    (Legacy.tickFrameIter nes0).1.cpu.steps = nes0.cpu.steps + 1 ∧
    (Legacy.tickFrameIter nes0).1.cpu_clock
      = nes0.cpu_clock + nes0.cpu.cyclesAt nes0.cpu.steps := by
  have h := (tick_frame_iteration nes0 (by decide)).1 (by decide)
  have hs := h.2.2.2.1 rfl
  exact ⟨h.1, h.2.1, h.2.2.1, hs.1, hs.2⟩

/-- Claim C10: the PPU clock never exceeds three times the CPU clock.  In
`Nes::tick_frame` the invariant `ppu_clock ≤ 3 * cpu_clock` holds at the
head of every loop iteration reachable from an invariant-satisfying state
(in particular from the fresh state with both clocks zero), so the
unsigned subtraction `expected_ppu_clock - ppu_clock` is exact (never
underflows); likewise, under the precondition `ppu.clock ≤
expected_ppu_clock` of `System::catch_up_ppu_drift`, its subtraction is
exact and (with no PPU breakpoints configured) the loop steps the PPU to
exactly `expected_ppu_clock`. -/
theorem ppu_clock_never_exceeds_3x (n : Legacy.Nes) (hn : n.ppu_clock ≤ 3 * n.cpu_clock)
    (k : Nat) (s : NesEmu.System) (expected : Nat)
    (hs : s.ppu.clock ≤ expected) (hb : s.ppu.breakpoints = []) :
    (Legacy.tickFrameHead k n).ppu_clock ≤ 3 * (Legacy.tickFrameHead k n).cpu_clock ∧
    n.ppu_clock + (n.cpu_clock * 3 - n.ppu_clock) = n.cpu_clock * 3 ∧
    s.ppu.clock + (expected - s.ppu.clock) = expected ∧
    (s.catch_up_ppu_drift expected).1.ppu.clock = expected ∧
    (s.catch_up_ppu_drift expected).2 = true := by
  have hc := NesEmu.stepPpuN_clean (expected - s.ppu.clock) s
    (NesEmu.cleanSteps_of_no_breakpoints (expected - s.ppu.clock) s.ppu hb)
  refine ⟨Legacy.tickFrameHead_inv k n hn, by omega, by omega, ?_, hc.1⟩
  show (s.stepPpuN (expected - s.ppu.clock)).1.ppu.clock = expected
  rw [hc.2.1]
  omega

/-- Witness for C10 at `nes0`, two loop iterations, and the fresh system
asked to catch up to PPU clock 5. -/
theorem ppu_clock_never_exceeds_3x_witness :
    (Legacy.tickFrameHead 2 nes0).ppu_clock ≤ 3 * (Legacy.tickFrameHead 2 nes0).cpu_clock ∧
    nes0.ppu_clock + (nes0.cpu_clock * 3 - nes0.ppu_clock) = nes0.cpu_clock * 3 ∧
    sys0.ppu.clock + (5 - sys0.ppu.clock) = 5 ∧
    (sys0.catch_up_ppu_drift 5).1.ppu.clock = 5 ∧
    (sys0.catch_up_ppu_drift 5).2 = true :=
  ppu_clock_never_exceeds_3x nes0 (by decide) 2 sys0 5 (by decide) rfl
